/-
Verification of the optimistic-concurrency event edit engine
(airmozilla/main/views/edit.py) against its natural-language specification.

The Python view code is shallowly embedded below.  The database is a single
explicit state record; Django ORM calls become pure functions on that state.
Semantics worth noting, reflected faithfully in the embedding:

* `transaction.atomic` rolls a transaction back only when the decorated body
  raises an exception.  The conflict path of `EventEditView.post` returns a
  rendered response normally, so everything already written to the database
  (many-to-many mutations, created tags, the synthesized baseline revision)
  is committed.  Only paths that raise (modeled as `Except.error`) roll back.
* Many-to-many operations (`event.tags.add/remove`, `event.channels.add/
  remove`) and `Tag.objects.create` hit the database immediately; scalar
  attribute assignments live on the in-memory instance until `event.save()`.
* `cleaned_data` is a dict whose iteration order is arbitrary; the loop body
  only reads values it has not yet written for a given key (each current
  value is captured before the mutation of the same key, and distinct keys
  touch distinct fields), so a fixed field order is observationally equal.
-/
import Mathlib

namespace AirmozillaEdit

/-- Database error outcomes of Django ORM lookups; an uncaught one aborts the
request with a server error and rolls the transaction back. -/
inductive DbErr
  | doesNotExist
  | multipleObjectsReturned
deriving DecidableEq, Inhabited

/-- A row of the Tag table. -/
structure Tag where
  id : Nat
  name : String
deriving DecidableEq, Inhabited

/-- A row of the Channel table. -/
structure Channel where
  id : Nat
  name : String
deriving DecidableEq, Inhabited

/-- A row of the Picture table; only the file URL matters to this view. -/
structure Picture where
  id : Nat
  url : String
deriving DecidableEq, Inhabited

/-- The event being edited: its scalar columns, the optional picture foreign
key (by id), the optional uploaded placeholder image (by its stored URL), and
the two many-to-many relations flattened to id lists in database iteration
order. -/
structure Event where
  id : Nat
  title : String
  description : String
  short_description : String
  call_info : String
  additional_links : String
  picture : Option Nat
  placeholder_img : Option String
  tags : List Nat
  channels : List Nat
deriving DecidableEq, Inhabited

/-- An immutable event revision row: pk, creation counter, optional author and
the full field snapshot taken at creation time. -/
structure Revision where
  pk : Nat
  eventId : Nat
  created : Nat
  user : Option String
  title : String
  description : String
  short_description : String
  call_info : String
  additional_links : String
  picture : Option Nat
  placeholder_img : Option String
  tags : List Nat
  channels : List Nat
deriving DecidableEq, Inhabited

/-- A chapter row (timestamped annotation of an event). -/
structure Chapter where
  eventId : Nat
  timestamp : Nat
  text : String
  user : String
  is_active : Bool
deriving DecidableEq, Inhabited

/-- The whole database state relevant to the edit views.  `nextTagId` and
`nextRevPk` model the auto-increment sequences (which, as in a real database,
are not rolled back). -/
structure DB where
  event : Event
  tags : List Tag
  channels : List Channel
  pictures : List Picture
  revisions : List Revision
  chapters : List Chapter
  nextTagId : Nat
  nextRevPk : Nat
deriving DecidableEq, Inhabited

/-- Case-insensitive string comparison, as in the `name__iexact` lookup. -/
def lowerEq (a b : String) : Bool :=
  a.data.map Char.toLower == b.data.map Char.toLower

/-- Equality of lists viewed as sets, as produced by Python `set(...) == set(...)`. -/
def setEq [BEq α] (a b : List α) : Bool :=
  a.all (fun x => b.contains x) && b.all (fun x => a.contains x)

/-- Set difference of lists, as produced by Python `set(a) - set(b)`. -/
def setMinus [BEq α] (a b : List α) : List α :=
  a.filter (fun x => !(b.contains x))

/-- Insert a string into a sorted list (ascending). -/
def insertStr (a : String) : List String → List String
  | [] => [a]
  | b :: t => if b < a then b :: insertStr a t else a :: b :: t

/-- Sort strings ascending, for the sorted display join of relation names. -/
def sortStrs (l : List String) : List String :=
  l.foldr insertStr []

/-- Python `", ".join(sorted(names))`. -/
def joinComma (l : List String) : String :=
  String.intercalate ", " (sortStrs l)

/-- `Channel.objects.get(pk=i)`. -/
def channelGet (db : DB) (i : Nat) : Except DbErr Channel :=
  match db.channels.filter (fun c => decide (c.id = i)) with
  | [c] => .ok c
  | [] => .error .doesNotExist
  | _ => .error .multipleObjectsReturned

/-- `Tag.objects.get(name=n)` (exact match, used on the removal path). -/
def tagGetByName (db : DB) (n : String) : Except DbErr Tag :=
  match db.tags.filter (fun t => decide (t.name = n)) with
  | [t] => .ok t
  | [] => .error .doesNotExist
  | _ => .error .multipleObjectsReturned

/-- The tag resolution on the addition path: `Tag.objects.get(name__iexact=n)`,
creating the tag on `DoesNotExist` and falling back to
`Tag.objects.filter(name__iexact=n)[:1]` on `MultipleObjectsReturned`.  Both
the unique-match case and the multiple-match fallback return the first
case-insensitive match in database order, so the function is total. -/
def resolveTag (db : DB) (n : String) : Tag × DB :=
  match db.tags.filter (fun t => lowerEq t.name n) with
  | [] =>
    let t : Tag := ⟨db.nextTagId, n⟩
    (t, { db with tags := db.tags ++ [t], nextTagId := db.nextTagId + 1 })
  | t :: _ => (t, db)

/-- `event.tags.remove(tag)`: immediate database write. -/
def eventTagsRemove (db : DB) (i : Nat) : DB :=
  { db with event := { db.event with tags := db.event.tags.filter (fun x => decide (x ≠ i)) } }

/-- `event.tags.add(tag)`: immediate database write; adding an existing member
is a no-op on the through table. -/
def eventTagsAdd (db : DB) (i : Nat) : DB :=
  if db.event.tags.contains i then db
  else { db with event := { db.event with tags := db.event.tags ++ [i] } }

/-- `event.channels.remove(channel)`: immediate database write. -/
def eventChannelsRemove (db : DB) (i : Nat) : DB :=
  { db with event := { db.event with channels := db.event.channels.filter (fun x => decide (x ≠ i)) } }

/-- `event.channels.add(channel)`: immediate database write. -/
def eventChannelsAdd (db : DB) (i : Nat) : DB :=
  if db.event.channels.contains i then db
  else { db with event := { db.event with channels := db.event.channels ++ [i] } }

/-- The `[Channel.objects.get(pk=x) for x in previous[key]]` comprehension. -/
def getChannels (db : DB) : List Nat → Except DbErr (List Channel)
  | [] => .ok []
  | i :: t =>
    match channelGet db i with
    | .error e => .error e
    | .ok c =>
      match getChannels db t with
      | .error e => .error e
      | .ok cs => .ok (c :: cs)

/-- The removal loop `for tag in prev - value: event.tags.remove(Tag.objects.get(name=tag))`. -/
def removeTagsByName : DB → List String → Except DbErr DB
  | db, [] => .ok db
  | db, n :: t =>
    match tagGetByName db n with
    | .error e => .error e
    | .ok tg => removeTagsByName (eventTagsRemove db tg.id) t

/-- The addition loop `for tag in value - prev: event.tags.add(resolved tag)`. -/
def addTagsByName : DB → List String → DB
  | db, [] => db
  | db, n :: t =>
    let r := resolveTag db n
    addTagsByName (eventTagsAdd r.2 r.1.id) t

/-- The channel removal loop over `prev - value`. -/
def removeChannels : DB → List Nat → DB
  | db, [] => db
  | db, i :: t => removeChannels (eventChannelsRemove db i) t

/-- The channel addition loop over `value - prev`. -/
def addChannels : DB → List Nat → DB
  | db, [] => db
  | db, i :: t => addChannels (eventChannelsAdd db i) t

/-- Modelled from the spec: `EventRevision.objects.create_from_event` (declared
in `airmozilla/main/models.py`, which is not under `src/`) snapshots the event
fields now and persists an immutable revision row with an optional author
(`None` for the synthesized baseline).  The pk and the creation order both
come from the monotone `nextRevPk` counter. -/
def create_from_event (db : DB) (e : Event) (user : Option String) : Revision × DB :=
  let r : Revision :=
    { pk := db.nextRevPk, eventId := e.id, created := db.nextRevPk, user := user,
      title := e.title, description := e.description,
      short_description := e.short_description, call_info := e.call_info,
      additional_links := e.additional_links, picture := e.picture,
      placeholder_img := e.placeholder_img,
      tags := db.event.tags, channels := db.event.channels }
  (r, { db with revisions := db.revisions ++ [r], nextRevPk := db.nextRevPk + 1 })

/-- `EventRevision.objects.filter(event=event)`. -/
def eventRevisions (db : DB) : List Revision :=
  db.revisions.filter (fun r => decide (r.eventId = db.event.id))

/-- Creation order used by Django for `get_previous_by_created`: strictly
earlier `created`, or equal `created` with a smaller pk. -/
def revLt (a b : Revision) : Prop :=
  a.created < b.created ∨ (a.created = b.created ∧ a.pk < b.pk)

instance revLt.decidable (a b : Revision) : Decidable (revLt a b) := by
  unfold revLt; exact inferInstance

/-- The latest revision of a list under `revLt` (first of the list on ties),
mirroring the query ordered by descending created then descending pk, taking
the first row. -/
def latestRev : List Revision → Option Revision
  | [] => none
  | x :: t =>
    match latestRev t with
    | none => some x
    | some y => if revLt x y then some y else some x

/-- Modelled from the spec: Django `revision.get_previous_by_created(event=event)`
returns the same-event revision immediately preceding the given one in
creation order and raises `DoesNotExist` when the given revision is the
earliest. -/
def get_previous_by_created (db : DB) (r : Revision) : Except DbErr Revision :=
  match latestRev (db.revisions.filter (fun x => decide (x.eventId = r.eventId ∧ revLt x r))) with
  | some p => .ok p
  | none => .error .doesNotExist

/-- The `previous` JSON blob the client round-trips: the output of
`EventEditView.event_to_dict` as parsed back by `json.loads`.  The
`placeholder_img` key is present only when the event had a placeholder image
at render time, hence the `Option`. -/
structure Baseline where
  event_id : Nat
  title : String
  description : String
  short_description : String
  call_info : String
  additional_links : String
  picture : Option Nat
  placeholder_img : Option String
  tags : List Nat
  channels : List Nat
deriving DecidableEq, Inhabited

/-- `EventEditView.event_to_dict(event)` (minus the display-only
`thumbnail_url`). -/
def event_to_dict (db : DB) : Baseline :=
  { event_id := db.event.id, title := db.event.title,
    description := db.event.description,
    short_description := db.event.short_description,
    call_info := db.event.call_info,
    additional_links := db.event.additional_links,
    picture := db.event.picture,
    placeholder_img := db.event.placeholder_img,
    tags := db.event.tags, channels := db.event.channels }

/-- The validated form output `form.cleaned_data`: scalar values, the picture
selection (by id), the uploaded placeholder file (`some url` exactly when
`placeholder_img` is in `request.FILES`), tag names (of the cleaned tag
objects) and channel pks (of the cleaned channel objects).  `event_id` is
carried but never diffed (lines 157-158 and 214-215 of the view). -/
structure Submission where
  event_id : Nat
  title : String
  description : String
  short_description : String
  call_info : String
  additional_links : String
  picture : Option Nat
  placeholder_img : Option String
  tags : List String
  channels : List Nat
deriving DecidableEq, Inhabited

/-- Lines 131-132: when a placeholder image file was uploaded, the cleaned
picture value is forced to None before the field loop runs. -/
def cleanedData (sub : Submission) : Submission :=
  match sub.placeholder_img with
  | some _ => { sub with picture := none }
  | none => sub

/-- A value recorded in the per-request change dict: either a display string
or a picture id. -/
inductive Val
  | s (v : String)
  | n (v : Option Nat)
deriving DecidableEq, Inhabited

/-- One entry of the `changes` dict: field key with its from/to values. -/
structure Change where
  key : String
  fro : Val
  toV : Val
deriving DecidableEq, Inhabited

/-- The state threaded through the per-field loop of `EventEditView.post`:
the in-memory event instance (scalar writes live here until `save()`), the
database (relation writes land here immediately), and the accumulated
`changes` and `conflict_errors`. -/
structure LoopState where
  mem : Event
  db : DB
  changes : List Change
  conflicts : List String
deriving DecidableEq, Inhabited

/-- One iteration of the loop for a plain scalar field: the current value is
`getattr(event, key)`, a change is recorded and applied in memory when the
submitted value differs from the baseline, and a conflict is recorded when
the field changed and the baseline differs from the current value. -/
def scalarStep (key : String) (value prevVal : String)
    (get : Event → String) (set : Event → String → Event)
    (s : LoopState) : LoopState :=
  let current := get s.mem
  let s1 := if value ≠ prevVal then
      { s with changes := s.changes ++ [⟨key, .s prevVal, .s value⟩],
               mem := set s.mem value }
    else s
  if value ≠ prevVal ∧ prevVal ≠ current then
    { s1 with conflicts := s1.conflicts ++ [key] }
  else s1

/-- Display names of the channels with the given ids (line 174-180 renders
each side of the channel diff from channel objects). -/
def channelNamesOf (db : DB) (ids : List Nat) : List String :=
  ids.filterMap (fun i => (db.channels.find? (fun c => decide (c.id = i))).map (fun c => c.name))

/-- The relation writes of the channels iteration: remove `prev - value`,
then add `value - prev`. -/
def channelsAfter (db : DB) (prevIds valIds : List Nat) : DB :=
  addChannels (removeChannels db (setMinus prevIds valIds)) (setMinus valIds prevIds)

/-- The pure remainder of the channels iteration, once the baseline channel
objects have been fetched.  `current` is read before the mutations, exactly
as line 154 precedes lines 168-171. -/
def channelsStepCore (prevObjs : List Channel) (sub : Submission) (prev : Baseline)
    (s : LoopState) : LoopState :=
  let current := s.db.event.channels
  let prevIds := (prevObjs.map (fun c => c.id)).eraseDups
  let valIds := sub.channels.eraseDups
  let s1 := { s with db := channelsAfter s.db prevIds valIds }
  let s2 := if setEq prevIds valIds = false then
      { s1 with changes := s1.changes ++
          [⟨"channels", Val.s (joinComma (channelNamesOf s.db prevIds)),
                        Val.s (joinComma (channelNamesOf s.db valIds))⟩] }
    else s1
  if setEq prevIds valIds = false ∧ prev.channels ≠ current then
    { s2 with conflicts := s2.conflicts ++ ["channels"] }
  else s2

/-- The channels iteration of the loop (lines 153-154, 162-180, 223-229). -/
def channelsStep (sub : Submission) (prev : Baseline) (s : LoopState) :
    Except DbErr LoopState :=
  match getChannels s.db prev.channels with
  | .error e => .error e
  | .ok prevObjs => .ok (channelsStepCore prevObjs sub prev s)

/-- Names of the tags whose id is in the given id list, deduplicated:
`set(x.name for x in Tag.objects.filter(id__in=ids))`. -/
def tagNamesByIds (db : DB) (ids : List Nat) : List String :=
  ((db.tags.filter (fun t => ids.contains t.id)).map (fun t => t.name)).eraseDups

/-- The pure remainder of the tags iteration, applied to the database state
`db2` left by the tag removals and additions. -/
def tagsStepCore (db2 : DB) (sub : Submission) (prev : Baseline)
    (s : LoopState) : LoopState :=
  let current := s.db.event.tags
  let valueNames := sub.tags.eraseDups
  let prevNames := tagNamesByIds s.db prev.tags
  let s1 := { s with db := db2 }
  let s2 := if setEq prevNames valueNames = false then
      { s1 with changes := s1.changes ++
          [⟨"tags", Val.s (joinComma prevNames), Val.s (joinComma valueNames)⟩] }
    else s1
  if setEq prevNames valueNames = false ∧ prev.tags ≠ current then
    { s2 with conflicts := s2.conflicts ++ ["tags"] }
  else s2

/-- The tags iteration of the loop (lines 151-152, 181-202, 223-229). -/
def tagsStep (sub : Submission) (prev : Baseline) (s : LoopState) :
    Except DbErr LoopState :=
  let valueNames := sub.tags.eraseDups
  let prevNames := tagNamesByIds s.db prev.tags
  match removeTagsByName s.db (setMinus prevNames valueNames) with
  | .error e => .error e
  | .ok db1 => .ok (tagsStepCore (addTagsByName db1 (setMinus valueNames prevNames)) sub prev s)

/-- The picture iteration (lines 155-156, 216-229): the current value is
`event.picture.id`, diffed and conflict-checked against the baseline id. -/
def pictureStep (value : Option Nat) (prev : Baseline) (s : LoopState) : LoopState :=
  let current := s.mem.picture
  let s1 := if value ≠ prev.picture then
      { s with changes := s.changes ++ [⟨"picture", Val.n prev.picture, Val.n value⟩],
               mem := { s.mem with picture := value } }
    else s
  if value ≠ prev.picture ∧ prev.picture ≠ current then
    { s1 with conflicts := s1.conflicts ++ ["picture"] }
  else s1

/-- URL of the picture file with the given id (`picture.file.url`). -/
def pictureUrl (db : DB) (i : Nat) : String :=
  ((db.pictures.find? (fun p => decide (p.id = i))).map (fun p => p.url)).getD ""

/-- Lines 139-149: the current value of the placeholder field resolves to the
active picture file URL when a picture is set and no new file was uploaded,
and otherwise to the stored placeholder URL (or nothing). -/
def placeholderCurrent (db : DB) (mem : Event) (upload : Option String) : Option String :=
  match mem.picture, upload with
  | some pid, none => some (pictureUrl db pid)
  | _, _ => mem.placeholder_img

/-- The placeholder image iteration (lines 139-149, 203-213, 223-229): a
change is recorded exactly when a file was uploaded; the from side is the old
placeholder URL (or an empty string) and the to side a fixed marker. -/
def placeholderStep (upload : Option String) (prev : Baseline) (s : LoopState) : LoopState :=
  let current := placeholderCurrent s.db s.mem upload
  let entry : Change :=
    ⟨"placeholder_img", Val.s (s.mem.placeholder_img.getD ""),
      Val.s "__saved__event_placeholder_img"⟩
  let s1 :=
    match upload with
    | some f =>
      { s with changes := s.changes ++ [entry],
               mem := { s.mem with placeholder_img := some f } }
    | none => s
  if upload.isSome = true ∧ prev.placeholder_img ≠ current then
    { s1 with conflicts := s1.conflicts ++ ["placeholder_img"] }
  else s1

/-- The five scalar iterations, starting from the freshly loaded event. -/
def scalarPhase (db : DB) (sub : Submission) (prev : Baseline) : LoopState :=
  let s0 : LoopState := { mem := db.event, db := db, changes := [], conflicts := [] }
  let s1 := scalarStep "title" sub.title prev.title
      (fun e => e.title) (fun e v => { e with title := v }) s0
  let s2 := scalarStep "description" sub.description prev.description
      (fun e => e.description) (fun e v => { e with description := v }) s1
  let s3 := scalarStep "short_description" sub.short_description prev.short_description
      (fun e => e.short_description) (fun e v => { e with short_description := v }) s2
  let s4 := scalarStep "call_info" sub.call_info prev.call_info
      (fun e => e.call_info) (fun e v => { e with call_info := v }) s3
  scalarStep "additional_links" sub.additional_links prev.additional_links
      (fun e => e.additional_links) (fun e v => { e with additional_links := v }) s4

/-- The whole `for key, value in cleaned_data.items()` loop, in a fixed field
order (see the header note on dict-order independence).  `sub` is the already
cleaned data. -/
def runFields (db : DB) (sub : Submission) (prev : Baseline) : Except DbErr LoopState :=
  match channelsStep sub prev (scalarPhase db sub prev) with
  | .error e => .error e
  | .ok s6 =>
    match tagsStep sub prev s6 with
    | .error e => .error e
    | .ok s7 => .ok (placeholderStep sub.placeholder_img prev (pictureStep sub.picture prev s7))

/-- Lines 127-128: synthesize a baseline revision when the event has none;
returns the new database and the pk of the synthesized revision, if any. -/
def ensureBaseline (db : DB) : DB × Option Nat :=
  if eventRevisions db = [] then
    let r := create_from_event db db.event none
    (r.2, some r.1.pk)
  else (db, none)

/-- `event.save()`: the scalar columns of the in-memory instance are written
to the event row; the many-to-many relations already live in the database. -/
def saveEvent (db : DB) (mem : Event) : DB :=
  { db with event := { mem with tags := db.event.tags, channels := db.event.channels } }

/-- The three outcomes of a valid edit submission. -/
inductive Outcome
  | conflict (fields : List String)
  | changed
  | noop
deriving DecidableEq, Inhabited

/-- `EventEditView.post` after form validation, acting on already cleaned
data.  A normal return commits the transaction (the conflict branch included);
only an `Except.error` (an uncaught ORM exception) rolls it back. -/
def postCleaned (db0 : DB) (sub : Submission) (prev : Baseline) (user : String) :
    Except DbErr (Outcome × DB) :=
  let eb := ensureBaseline db0
  match runFields eb.1 sub prev with
  | .error e => .error e
  | .ok s =>
    if s.conflicts ≠ [] then
      .ok (.conflict s.conflicts, s.db)
    else if s.changes ≠ [] then
      let db2 := saveEvent s.db s.mem
      .ok (.changed, (create_from_event db2 db2.event (some user)).2)
    else
      .ok (.noop,
        match eb.2 with
        | some pk => { s.db with revisions := s.db.revisions.filter (fun r => decide (r.pk ≠ pk)) }
        | none => s.db)

/-- `EventEditView.post` on a valid submission: clean the data (lines
130-132), then run the transaction body. -/
def post (db0 : DB) (sub0 : Submission) (prev : Baseline) (user : String) :
    Except DbErr (Outcome × DB) :=
  postCleaned db0 (cleanedData sub0) prev user

/-- The `(event, timestamp)` chapter key used by both chapter endpoints. -/
def chapterMatch (db : DB) (ts : Nat) (c : Chapter) : Bool :=
  decide (c.eventId = db.event.id ∧ c.timestamp = ts)

/-- `EventEditChaptersView.post` without the delete flag, after form
validation: update the chapter with the submitted timestamp in place, or
create one (`is_active` takes the model default, active). -/
def chapterUpsert (db : DB) (ts : Nat) (txt u : String) : Except DbErr DB :=
  match db.chapters.filter (chapterMatch db ts) with
  | [] => .ok { db with chapters := db.chapters ++ [⟨db.event.id, ts, txt, u, true⟩] }
  | [_] => .ok { db with chapters := db.chapters.map (fun c =>
      if chapterMatch db ts c then { c with user := u, text := txt } else c) }
  | _ => .error .multipleObjectsReturned

/-- `EventEditChaptersView.post` with the delete flag: fetch the chapter by
`(event, timestamp)` and set `is_active = False`. -/
def chapterDelete (db : DB) (ts : Nat) : Except DbErr DB :=
  match db.chapters.filter (chapterMatch db ts) with
  | [_] => .ok { db with chapters := db.chapters.map (fun c =>
      if chapterMatch db ts c then { c with is_active := false } else c) }
  | [] => .error .doesNotExist
  | _ => .error .multipleObjectsReturned

/-- `EventEditChaptersView.get` with `?all`: the chapters serialized to the
client are exactly the active ones of the event. -/
def chapterList (db : DB) : List Chapter :=
  db.chapters.filter (fun c => decide (c.eventId = db.event.id ∧ c.is_active = true))

/-- Concrete state exercising the conflict path: a concurrent edit moved the
event from channel 1 to channel 3, the client baseline still says channel 1,
and the client asks for channel 2; the event has no revisions yet. -/
def C1db : DB :=
  { event := { id := 10, title := "t", description := "d", short_description := "sd",
               call_info := "ci", additional_links := "al", picture := none,
               placeholder_img := none, tags := [], channels := [3] },
    tags := [], channels := [⟨1, "A"⟩, ⟨2, "B"⟩, ⟨3, "C"⟩], pictures := [],
    revisions := [], chapters := [], nextTagId := 1, nextRevPk := 1 }

/-- Client baseline for `C1db`: channel 1, all scalars as stored. -/
def C1prev : Baseline :=
  { event_id := 10, title := "t", description := "d", short_description := "sd",
    call_info := "ci", additional_links := "al", picture := none,
    placeholder_img := none, tags := [], channels := [1] }

/-- Submission for `C1db`: change the channel to 2, touch nothing else. -/
def C1sub : Submission :=
  { event_id := 10, title := "t", description := "d", short_description := "sd",
    call_info := "ci", additional_links := "al", picture := none,
    placeholder_img := none, tags := [], channels := [2] }

/-- An existing revision of the `C2db` event (so no baseline is synthesized). -/
def C2rev0 : Revision :=
  { pk := 1, eventId := 20, created := 1, user := none, title := "t",
    description := "d", short_description := "sd", call_info := "ci",
    additional_links := "al", picture := none, placeholder_img := none,
    tags := [2, 1], channels := [] }

/-- Concrete state for the relation-order conflict: the stored tag list is
`[2, 1]` while the client baseline records the same members as `[1, 2]`. -/
def C2db : DB :=
  { event := { id := 20, title := "t", description := "d", short_description := "sd",
               call_info := "ci", additional_links := "al", picture := none,
               placeholder_img := none, tags := [2, 1], channels := [] },
    tags := [⟨1, "a"⟩, ⟨2, "b"⟩, ⟨3, "c"⟩], channels := [], pictures := [],
    revisions := [C2rev0], chapters := [], nextTagId := 4, nextRevPk := 2 }

/-- Client baseline for `C2db`: the same tag members, listed as `[1, 2]`. -/
def C2prev : Baseline :=
  { event_id := 20, title := "t", description := "d", short_description := "sd",
    call_info := "ci", additional_links := "al", picture := none,
    placeholder_img := none, tags := [1, 2], channels := [] }

/-- Submission for `C2db`: add tag name `c` to the existing two. -/
def C2sub : Submission :=
  { event_id := 20, title := "t", description := "d", short_description := "sd",
    call_info := "ci", additional_links := "al", picture := none,
    placeholder_img := none, tags := ["a", "b", "c"], channels := [] }

/-- An existing revision of the `C8db` event. -/
def C8rev0 : Revision :=
  { pk := 1, eventId := 30, created := 1, user := none, title := "t",
    description := "d", short_description := "sd", call_info := "ci",
    additional_links := "al", picture := some 7, placeholder_img := none,
    tags := [], channels := [] }

/-- Concrete state for the picture-clearing counterexample: the event has
picture 7 in the database while the client baseline recorded no picture. -/
def C8db : DB :=
  { event := { id := 30, title := "t", description := "d", short_description := "sd",
               call_info := "ci", additional_links := "al", picture := some 7,
               placeholder_img := none, tags := [], channels := [] },
    tags := [], channels := [], pictures := [⟨7, "p7"⟩],
    revisions := [C8rev0], chapters := [], nextTagId := 1, nextRevPk := 2 }

/-- Client baseline for `C8db`: no picture selected. -/
def C8prev : Baseline :=
  { event_id := 30, title := "t", description := "d", short_description := "sd",
    call_info := "ci", additional_links := "al", picture := none,
    placeholder_img := none, tags := [], channels := [] }

/-- Submission for `C8db`: upload a placeholder image (and submit picture 9,
which the view overrides). -/
def C8sub : Submission :=
  { event_id := 30, title := "t", description := "d", short_description := "sd",
    call_info := "ci", additional_links := "al", picture := some 9,
    placeholder_img := some "upl", tags := [], channels := [] }

/-- Loop state from which the conflict-rule witness runs the tags iteration. -/
def W2s0 : LoopState :=
  { mem := C2db.event, db := C2db, changes := [], conflicts := [] }

/-- Result of the tags iteration on `W2s0`. -/
def W2t : LoopState :=
  match tagsStep C2sub C2prev W2s0 with
  | .ok s => s
  | .error _ => default

/-- Concrete state for the conflict-gating witness: a channels conflict. -/
def W3db : DB :=
  { event := { id := 11, title := "t", description := "d", short_description := "sd",
               call_info := "ci", additional_links := "al", picture := none,
               placeholder_img := none, tags := [], channels := [3] },
    tags := [], channels := [⟨1, "A"⟩, ⟨2, "B"⟩, ⟨3, "C"⟩], pictures := [],
    revisions := [], chapters := [], nextTagId := 1, nextRevPk := 1 }

/-- Client baseline for `W3db`. -/
def W3prev : Baseline :=
  { event_id := 11, title := "t", description := "d", short_description := "sd",
    call_info := "ci", additional_links := "al", picture := none,
    placeholder_img := none, tags := [], channels := [1] }

/-- Submission for `W3db`. -/
def W3sub : Submission :=
  { event_id := 11, title := "t", description := "d", short_description := "sd",
    call_info := "ci", additional_links := "al", picture := none,
    placeholder_img := none, tags := [], channels := [2] }

/-- Result of the field loop on the `W3db` input. -/
def W3s : LoopState :=
  match runFields W3db W3sub W3prev with
  | .ok s => s
  | .error _ => default

/-- Concrete event for the no-op witness: one tag, one channel, no revisions. -/
def W4db : DB :=
  { event := { id := 40, title := "T", description := "D", short_description := "SD",
               call_info := "CI", additional_links := "AL", picture := none,
               placeholder_img := none, tags := [5], channels := [6] },
    tags := [⟨5, "five"⟩], channels := [⟨6, "six"⟩], pictures := [],
    revisions := [], chapters := [], nextTagId := 6, nextRevPk := 1 }

/-- Submission for `W4db` that resubmits the snapshot unchanged. -/
def W4sub : Submission :=
  { event_id := 40, title := "T", description := "D", short_description := "SD",
    call_info := "CI", additional_links := "AL", picture := none,
    placeholder_img := none, tags := ["five"], channels := [6] }

/-- Concrete event for the first-edit scenario: title is Old, no revisions. -/
def W5db : DB :=
  { event := { id := 50, title := "Old", description := "D", short_description := "SD",
               call_info := "CI", additional_links := "AL", picture := none,
               placeholder_img := none, tags := [5], channels := [6] },
    tags := [⟨5, "five"⟩], channels := [⟨6, "six"⟩], pictures := [],
    revisions := [], chapters := [], nextTagId := 6, nextRevPk := 1 }

/-- Submission for `W5db` that only renames the title to New. -/
def W5sub : Submission :=
  { event_id := 50, title := "New", description := "D", short_description := "SD",
    call_info := "CI", additional_links := "AL", picture := none,
    placeholder_img := none, tags := ["five"], channels := [6] }

/-- Tag table with two case-insensitive matches for the name foo. -/
def W6db : DB :=
  { event := { id := 60, title := "t", description := "d", short_description := "sd",
               call_info := "ci", additional_links := "al", picture := none,
               placeholder_img := none, tags := [], channels := [] },
    tags := [⟨1, "Foo"⟩, ⟨2, "FOO"⟩], channels := [], pictures := [],
    revisions := [], chapters := [], nextTagId := 3, nextRevPk := 1 }

/-- Earliest revision of the `W7db` event. -/
def W7r1 : Revision :=
  { pk := 1, eventId := 70, created := 1, user := none, title := "t",
    description := "d", short_description := "sd", call_info := "ci",
    additional_links := "al", picture := none, placeholder_img := none,
    tags := [], channels := [] }

/-- Later revision of the `W7db` event. -/
def W7r2 : Revision :=
  { pk := 2, eventId := 70, created := 2, user := some "alice", title := "t2",
    description := "d", short_description := "sd", call_info := "ci",
    additional_links := "al", picture := none, placeholder_img := none,
    tags := [], channels := [] }

/-- Database holding the two `W7` revisions. -/
def W7db : DB :=
  { event := { id := 70, title := "t2", description := "d", short_description := "sd",
               call_info := "ci", additional_links := "al", picture := none,
               placeholder_img := none, tags := [], channels := [] },
    tags := [], channels := [], pictures := [],
    revisions := [W7r1, W7r2], chapters := [], nextTagId := 1, nextRevPk := 3 }

/-- Database with one chapter at timestamp 5, for the upsert witness. -/
def W9db : DB :=
  { event := { id := 90, title := "t", description := "d", short_description := "sd",
               call_info := "ci", additional_links := "al", picture := none,
               placeholder_img := none, tags := [], channels := [] },
    tags := [], channels := [], pictures := [], revisions := [],
    chapters := [⟨90, 5, "old text", "alice", true⟩], nextTagId := 1, nextRevPk := 1 }

/-- Result of upserting timestamp 5 into `W9db`. -/
def W9db2 : DB :=
  match chapterUpsert W9db 5 "new text" "bob" with
  | .ok d => d
  | .error _ => default

/-- Database with two chapters, for the soft-delete witness. -/
def W10db : DB :=
  { event := { id := 91, title := "t", description := "d", short_description := "sd",
               call_info := "ci", additional_links := "al", picture := none,
               placeholder_img := none, tags := [], channels := [] },
    tags := [], channels := [], pictures := [], revisions := [],
    chapters := [⟨91, 7, "x", "carol", true⟩, ⟨91, 8, "y", "dave", true⟩],
    nextTagId := 1, nextRevPk := 1 }

/-- Result of soft-deleting timestamp 7 from `W10db`. -/
def W10db2 : DB :=
  match chapterDelete W10db 7 with
  | .ok d => d
  | .error _ => default

/-- Final database of the committed `C8db` edit. -/
def W8dbf : DB :=
  match post C8db C8sub C8prev "u" with
  | .ok r => r.2
  | .error _ => default

/-- Set-equal lists have empty set differences in both directions. -/
theorem setEq_setMinus [BEq α] {a b : List α} (h : setEq a b = true) :
    setMinus a b = [] ∧ setMinus b a = [] := by
  unfold setEq at h
  rw [Bool.and_eq_true, List.all_eq_true, List.all_eq_true] at h
  constructor <;> (unfold setMinus; rw [List.filter_eq_nil_iff]; intro x hx; simp)
  · exact h.1 x hx
  · exact h.2 x hx

/-- The scalar iteration never touches the database. -/
theorem scalarStep_db (key value prevVal : String) (get : Event → String)
    (set : Event → String → Event) (s : LoopState) :
    (scalarStep key value prevVal get set s).db = s.db := by
  simp only [scalarStep]; split_ifs <;> rfl

/-- Memory effect of the scalar iteration. -/
theorem scalarStep_mem (key value prevVal : String) (get : Event → String)
    (set : Event → String → Event) (s : LoopState) :
    (scalarStep key value prevVal get set s).mem =
      if value ≠ prevVal then set s.mem value else s.mem := by
  simp only [scalarStep]; split_ifs <;> rfl

/-- Change entries appended by the scalar iteration. -/
theorem scalarStep_changes (key value prevVal : String) (get : Event → String)
    (set : Event → String → Event) (s : LoopState) :
    (scalarStep key value prevVal get set s).changes =
      s.changes ++ if value ≠ prevVal then [⟨key, .s prevVal, .s value⟩] else [] := by
  simp only [scalarStep]; split_ifs <;> simp

/-- Conflicts appended by the scalar iteration. -/
theorem scalarStep_conflicts (key value prevVal : String) (get : Event → String)
    (set : Event → String → Event) (s : LoopState) :
    (scalarStep key value prevVal get set s).conflicts =
      s.conflicts ++ if value ≠ prevVal ∧ prevVal ≠ get s.mem then [key] else [] := by
  simp only [scalarStep]; split_ifs <;> simp

/-- A scalar iteration whose submitted value equals the baseline is inert. -/
theorem scalarStep_id (key value prevVal : String) (get : Event → String)
    (set : Event → String → Event) (s : LoopState) (h : value = prevVal) :
    scalarStep key value prevVal get set s = s := by
  simp [scalarStep, h]

/-- A scalar iteration with a real change and an unchanged current value
records the change, applies it in memory and reports no conflict. -/
theorem scalarStep_changed (key value prevVal : String) (get : Event → String)
    (set : Event → String → Event) (s : LoopState)
    (hne : value ≠ prevVal) (hcur : prevVal = get s.mem) :
    scalarStep key value prevVal get set s =
      { s with changes := s.changes ++ [⟨key, .s prevVal, .s value⟩],
               mem := set s.mem value } := by
  simp only [scalarStep]
  rw [if_neg (fun hh => hh.2 hcur), if_pos hne]

/-- The picture iteration never touches the database. -/
theorem pictureStep_db (value : Option Nat) (prev : Baseline) (s : LoopState) :
    (pictureStep value prev s).db = s.db := by
  simp only [pictureStep]; split_ifs <;> rfl

/-- Memory effect of the picture iteration. -/
theorem pictureStep_mem (value : Option Nat) (prev : Baseline) (s : LoopState) :
    (pictureStep value prev s).mem =
      if value ≠ prev.picture then { s.mem with picture := value } else s.mem := by
  simp only [pictureStep]; split_ifs <;> rfl

/-- Change entries appended by the picture iteration. -/
theorem pictureStep_changes (value : Option Nat) (prev : Baseline) (s : LoopState) :
    (pictureStep value prev s).changes =
      s.changes ++ if value ≠ prev.picture then [⟨"picture", .n prev.picture, .n value⟩] else [] := by
  simp only [pictureStep]; split_ifs <;> simp

/-- Conflicts appended by the picture iteration. -/
theorem pictureStep_conflicts (value : Option Nat) (prev : Baseline) (s : LoopState) :
    (pictureStep value prev s).conflicts =
      s.conflicts ++ if value ≠ prev.picture ∧ prev.picture ≠ s.mem.picture then ["picture"] else [] := by
  simp only [pictureStep]; split_ifs <;> simp

/-- A picture iteration whose submitted value equals the baseline is inert. -/
theorem pictureStep_id (value : Option Nat) (prev : Baseline) (s : LoopState)
    (h : value = prev.picture) : pictureStep value prev s = s := by
  simp [pictureStep, h]

/-- The placeholder iteration never touches the database. -/
theorem placeholderStep_db (upload : Option String) (prev : Baseline) (s : LoopState) :
    (placeholderStep upload prev s).db = s.db := by
  cases upload <;> (simp only [placeholderStep]; split_ifs <;> rfl)

/-- Memory effect of the placeholder iteration. -/
theorem placeholderStep_mem (upload : Option String) (prev : Baseline) (s : LoopState) :
    (placeholderStep upload prev s).mem =
      match upload with
      | some f => { s.mem with placeholder_img := some f }
      | none => s.mem := by
  cases upload <;> (simp only [placeholderStep]; split_ifs <;> rfl)

/-- Change entries appended by the placeholder iteration: exactly one when a
file was uploaded. -/
theorem placeholderStep_changes (upload : Option String) (prev : Baseline) (s : LoopState) :
    (placeholderStep upload prev s).changes =
      s.changes ++ if upload.isSome = true then
        [⟨"placeholder_img", Val.s (s.mem.placeholder_img.getD ""),
          Val.s "__saved__event_placeholder_img"⟩] else [] := by
  cases upload <;> (simp only [placeholderStep]; split_ifs <;> simp_all)

/-- Conflicts appended by the placeholder iteration. -/
theorem placeholderStep_conflicts (upload : Option String) (prev : Baseline) (s : LoopState) :
    (placeholderStep upload prev s).conflicts =
      s.conflicts ++ if upload.isSome = true ∧
          prev.placeholder_img ≠ placeholderCurrent s.db s.mem upload then
        ["placeholder_img"] else [] := by
  cases upload <;> (simp only [placeholderStep]; split_ifs <;> simp_all)

/-- The placeholder iteration without an upload is inert. -/
theorem placeholderStep_none (prev : Baseline) (s : LoopState) :
    placeholderStep none prev s = s := by
  simp [placeholderStep]

/-- A successful `Channel.objects.get(pk=i)` returns a channel with id `i`. -/
theorem channelGet_id {db : DB} {i : Nat} {c : Channel}
    (h : channelGet db i = .ok c) : c.id = i := by
  unfold channelGet at h
  cases hf : db.channels.filter (fun x => decide (x.id = i)) with
  | nil => rw [hf] at h; cases h
  | cons a t =>
    cases t with
    | nil =>
      rw [hf] at h
      injection h with h1
      have hm : a ∈ db.channels.filter (fun x => decide (x.id = i)) := by
        rw [hf]; exact List.mem_singleton_self a
      rw [← h1]
      exact of_decide_eq_true (List.mem_filter.mp hm).2
    | cons b t2 => rw [hf] at h; cases h

/-- The fetched baseline channel objects carry exactly the requested ids. -/
theorem getChannels_ids {db : DB} : ∀ {l : List Nat} {objs : List Channel},
    getChannels db l = .ok objs → objs.map (fun c => c.id) = l := by
  intro l
  induction l with
  | nil =>
    intro objs h
    unfold getChannels at h
    injection h with h1
    rw [← h1]
    rfl
  | cons i t ih =>
    intro objs h
    unfold getChannels at h
    cases hc : channelGet db i with
    | error e => rw [hc] at h; cases h
    | ok c =>
      rw [hc] at h
      cases hg : getChannels db t with
      | error e => rw [hg] at h; cases h
      | ok cs =>
        rw [hg] at h
        injection h with h1
        rw [← h1]
        simp [channelGet_id hc, ih hg]

/-- When every requested channel id has exactly one row, fetching the
baseline channel objects succeeds. -/
theorem getChannels_ok_of_len {db : DB} : ∀ {l : List Nat},
    (∀ i ∈ l, (db.channels.filter (fun c => decide (c.id = i))).length = 1) →
    ∃ objs, getChannels db l = .ok objs := by
  intro l
  induction l with
  | nil => exact fun _ => ⟨[], rfl⟩
  | cons i t ih =>
    intro h
    obtain ⟨a, ha⟩ := List.length_eq_one.mp (h i (List.mem_cons_self i t))
    obtain ⟨cs, hcs⟩ := ih (fun j hj => h j (List.mem_cons_of_mem i hj))
    refine ⟨a :: cs, ?_⟩
    unfold getChannels
    have hga : channelGet db i = .ok a := by unfold channelGet; rw [ha]
    rw [hga, hcs]

/-- The channels iteration never touches the in-memory event. -/
theorem channelsStepCore_mem (prevObjs : List Channel) (sub : Submission)
    (prev : Baseline) (s : LoopState) :
    (channelsStepCore prevObjs sub prev s).mem = s.mem := by
  simp only [channelsStepCore]; split_ifs <;> rfl

/-- Database effect of the channels iteration. -/
theorem channelsStepCore_db (prevObjs : List Channel) (sub : Submission)
    (prev : Baseline) (s : LoopState) :
    (channelsStepCore prevObjs sub prev s).db =
      channelsAfter s.db (prevObjs.map (fun c => c.id)).eraseDups sub.channels.eraseDups := by
  simp only [channelsStepCore]; split_ifs <;> rfl

/-- Change entries appended by the channels iteration. -/
theorem channelsStepCore_changes (prevObjs : List Channel) (sub : Submission)
    (prev : Baseline) (s : LoopState) :
    (channelsStepCore prevObjs sub prev s).changes =
      s.changes ++ if setEq (prevObjs.map (fun c => c.id)).eraseDups sub.channels.eraseDups = false then
        [⟨"channels",
          Val.s (joinComma (channelNamesOf s.db (prevObjs.map (fun c => c.id)).eraseDups)),
          Val.s (joinComma (channelNamesOf s.db sub.channels.eraseDups))⟩] else [] := by
  simp only [channelsStepCore]; split_ifs <;> simp_all

/-- Conflicts appended by the channels iteration: the test compares the raw
baseline id list against the current id list. -/
theorem channelsStepCore_conflicts (prevObjs : List Channel) (sub : Submission)
    (prev : Baseline) (s : LoopState) :
    (channelsStepCore prevObjs sub prev s).conflicts =
      s.conflicts ++ if setEq (prevObjs.map (fun c => c.id)).eraseDups sub.channels.eraseDups = false ∧
          prev.channels ≠ s.db.event.channels then
        ["channels"] else [] := by
  simp only [channelsStepCore]; split_ifs <;> simp_all

/-- A successful channels iteration factors through the fetched baseline
objects. -/
theorem channelsStep_ok_elim {sub : Submission} {prev : Baseline} {s s' : LoopState}
    (h : channelsStep sub prev s = .ok s') :
    ∃ objs, getChannels s.db prev.channels = .ok objs ∧
      s' = channelsStepCore objs sub prev s := by
  unfold channelsStep at h
  cases hg : getChannels s.db prev.channels with
  | error e => rw [hg] at h; cases h
  | ok objs =>
    rw [hg] at h
    injection h with h1
    exact ⟨objs, rfl, h1.symm⟩

/-- A channels iteration whose submitted member set equals the baseline
member set is inert. -/
theorem channelsStep_id {sub : Submission} {prev : Baseline} {s : LoopState}
    {objs : List Channel}
    (hobjs : getChannels s.db prev.channels = .ok objs)
    (hset : setEq prev.channels.eraseDups sub.channels.eraseDups = true) :
    channelsStep sub prev s = .ok s := by
  unfold channelsStep
  rw [hobjs]
  have hids : objs.map (fun c => c.id) = prev.channels := getChannels_ids hobjs
  have hm := setEq_setMinus hset
  simp only [channelsStepCore]
  rw [hids]
  rw [if_neg (by simp [hset]), if_neg (by simp [hset])]
  unfold channelsAfter
  rw [hm.1, hm.2]
  rfl

/-- The tags iteration never touches the in-memory event. -/
theorem tagsStepCore_mem (db2 : DB) (sub : Submission) (prev : Baseline) (s : LoopState) :
    (tagsStepCore db2 sub prev s).mem = s.mem := by
  simp only [tagsStepCore]; split_ifs <;> rfl

/-- Database effect of the tags iteration. -/
theorem tagsStepCore_db (db2 : DB) (sub : Submission) (prev : Baseline) (s : LoopState) :
    (tagsStepCore db2 sub prev s).db = db2 := by
  simp only [tagsStepCore]; split_ifs <;> rfl

/-- Change entries appended by the tags iteration. -/
theorem tagsStepCore_changes (db2 : DB) (sub : Submission) (prev : Baseline) (s : LoopState) :
    (tagsStepCore db2 sub prev s).changes =
      s.changes ++ if setEq (tagNamesByIds s.db prev.tags) sub.tags.eraseDups = false then
        [⟨"tags", Val.s (joinComma (tagNamesByIds s.db prev.tags)),
          Val.s (joinComma sub.tags.eraseDups)⟩] else [] := by
  simp only [tagsStepCore]; split_ifs <;> simp_all

/-- Conflicts appended by the tags iteration: the test compares the raw
baseline id list against the current id list. -/
theorem tagsStepCore_conflicts (db2 : DB) (sub : Submission) (prev : Baseline) (s : LoopState) :
    (tagsStepCore db2 sub prev s).conflicts =
      s.conflicts ++ if setEq (tagNamesByIds s.db prev.tags) sub.tags.eraseDups = false ∧
          prev.tags ≠ s.db.event.tags then
        ["tags"] else [] := by
  simp only [tagsStepCore]; split_ifs <;> simp_all

/-- A successful tags iteration factors through the removal phase. -/
theorem tagsStep_ok_elim {sub : Submission} {prev : Baseline} {s s' : LoopState}
    (h : tagsStep sub prev s = .ok s') :
    ∃ db1, removeTagsByName s.db
        (setMinus (tagNamesByIds s.db prev.tags) sub.tags.eraseDups) = .ok db1 ∧
      s' = tagsStepCore
        (addTagsByName db1 (setMinus sub.tags.eraseDups (tagNamesByIds s.db prev.tags)))
        sub prev s := by
  simp only [tagsStep] at h
  cases hg : removeTagsByName s.db
      (setMinus (tagNamesByIds s.db prev.tags) sub.tags.eraseDups) with
  | error e => rw [hg] at h; cases h
  | ok db1 =>
    rw [hg] at h
    injection h with h1
    exact ⟨db1, rfl, h1.symm⟩

/-- A tags iteration whose submitted name set equals the baseline name set is
inert. -/
theorem tagsStep_id {sub : Submission} {prev : Baseline} {s : LoopState}
    (hset : setEq (tagNamesByIds s.db prev.tags) sub.tags.eraseDups = true) :
    tagsStep sub prev s = .ok s := by
  simp only [tagsStep]
  have hm := setEq_setMinus hset
  rw [hm.1, hm.2]
  show Except.ok (tagsStepCore (addTagsByName s.db []) sub prev s) = Except.ok s
  simp only [tagsStepCore, addTagsByName]
  rw [if_neg (by simp [hset]), if_neg (by simp [hset])]

/-- Synthesizing a baseline does not change the event row. -/
theorem ensureBaseline_event (db : DB) : (ensureBaseline db).1.event = db.event := by
  unfold ensureBaseline; split <;> rfl

/-- Synthesizing a baseline does not change the tag table. -/
theorem ensureBaseline_tags (db : DB) : (ensureBaseline db).1.tags = db.tags := by
  unfold ensureBaseline; split <;> rfl

/-- Synthesizing a baseline does not change the channel table. -/
theorem ensureBaseline_channels (db : DB) : (ensureBaseline db).1.channels = db.channels := by
  unfold ensureBaseline; split <;> rfl

/-- Baseline synthesis when the event has no revision yet. -/
theorem ensureBaseline_empty {db : DB} (h : eventRevisions db = []) :
    ensureBaseline db = ((create_from_event db db.event none).2, some db.nextRevPk) := by
  unfold ensureBaseline; rw [if_pos h]; rfl

/-- Baseline synthesis is skipped when a revision exists. -/
theorem ensureBaseline_nonempty {db : DB} (h : ¬ eventRevisions db = []) :
    ensureBaseline db = (db, none) := by
  unfold ensureBaseline; rw [if_neg h]

/-- With every scalar equal to its baseline value, the scalar phase is inert. -/
theorem scalarPhase_id (db : DB) (sub : Submission) (prev : Baseline)
    (h1 : sub.title = prev.title) (h2 : sub.description = prev.description)
    (h3 : sub.short_description = prev.short_description)
    (h4 : sub.call_info = prev.call_info)
    (h5 : sub.additional_links = prev.additional_links) :
    scalarPhase db sub prev = { mem := db.event, db := db, changes := [], conflicts := [] } := by
  simp only [scalarPhase]
  rw [scalarStep_id _ _ _ _ _ _ h1, scalarStep_id _ _ _ _ _ _ h2,
      scalarStep_id _ _ _ _ _ _ h3, scalarStep_id _ _ _ _ _ _ h4,
      scalarStep_id _ _ _ _ _ _ h5]

/-- With only the title differing from its baseline value, and the baseline
title matching the stored title, the scalar phase records exactly the title
change and no conflict. -/
theorem scalarPhase_title (db : DB) (sub : Submission) (prev : Baseline)
    (h1 : sub.title ≠ prev.title) (h1c : prev.title = db.event.title)
    (h2 : sub.description = prev.description)
    (h3 : sub.short_description = prev.short_description)
    (h4 : sub.call_info = prev.call_info)
    (h5 : sub.additional_links = prev.additional_links) :
    scalarPhase db sub prev =
      { mem := { db.event with title := sub.title }, db := db,
        changes := [⟨"title", .s prev.title, .s sub.title⟩], conflicts := [] } := by
  simp only [scalarPhase]
  rw [scalarStep_changed _ _ _ _ _ _ h1 h1c,
      scalarStep_id _ _ _ _ _ _ h2, scalarStep_id _ _ _ _ _ _ h3,
      scalarStep_id _ _ _ _ _ _ h4, scalarStep_id _ _ _ _ _ _ h5]
  rfl

/-- A scalar iteration whose setter leaves the picture field alone preserves
the in-memory picture. -/
theorem scalarStep_mem_picture (key value prevVal : String) (get : Event → String)
    (set : Event → String → Event) (s : LoopState)
    (hset : ∀ e v, (set e v).picture = e.picture) :
    (scalarStep key value prevVal get set s).mem.picture = s.mem.picture := by
  rw [scalarStep_mem]
  split_ifs with h
  · exact hset s.mem value
  · rfl

/-- The scalar phase preserves the in-memory picture selection. -/
theorem scalarPhase_mem_picture (db : DB) (sub : Submission) (prev : Baseline) :
    (scalarPhase db sub prev).mem.picture = db.event.picture := by
  simp only [scalarPhase, scalarStep_mem]
  split_ifs <;> rfl

/-- The placeholder iteration preserves the in-memory picture selection. -/
theorem placeholderStep_mem_picture (upload : Option String) (prev : Baseline) (s : LoopState) :
    (placeholderStep upload prev s).mem.picture = s.mem.picture := by
  rw [placeholderStep_mem]
  cases upload <;> rfl

/-- A successful field loop factors into its four phases. -/
theorem runFields_ok_elim {db : DB} {sub : Submission} {prev : Baseline} {s : LoopState}
    (h : runFields db sub prev = .ok s) :
    ∃ s6 s7, channelsStep sub prev (scalarPhase db sub prev) = .ok s6 ∧
      tagsStep sub prev s6 = .ok s7 ∧
      s = placeholderStep sub.placeholder_img prev (pictureStep sub.picture prev s7) := by
  unfold runFields at h
  cases hc : channelsStep sub prev (scalarPhase db sub prev) with
  | error e => rw [hc] at h; cases h
  | ok s6 =>
    rw [hc] at h
    dsimp only at h
    cases ht : tagsStep sub prev s6 with
    | error e => rw [ht] at h; cases h
    | ok s7 =>
      rw [ht] at h
      injection h with h1
      exact ⟨s6, s7, rfl, ht, h1.symm⟩

/-- The in-memory picture selection produced by the field loop: the submitted
value if it differs from the baseline, the stored one otherwise. -/
theorem runFields_mem_picture {db : DB} {sub : Submission} {prev : Baseline} {s : LoopState}
    (h : runFields db sub prev = .ok s) :
    s.mem.picture = if sub.picture ≠ prev.picture then sub.picture else db.event.picture := by
  obtain ⟨s6, s7, hc, ht, hs⟩ := runFields_ok_elim h
  obtain ⟨objs, hobjs, hs6⟩ := channelsStep_ok_elim hc
  obtain ⟨db1, hdb1, hs7⟩ := tagsStep_ok_elim ht
  rw [hs, placeholderStep_mem_picture, pictureStep_mem]
  have hm7 : s7.mem.picture = db.event.picture := by
    rw [hs7, tagsStepCore_mem, hs6, channelsStepCore_mem, scalarPhase_mem_picture]
  split_ifs with hv
  · rfl
  · exact hm7

/-- Appending a conflict only together with a change for the same key
preserves coverage of the conflict list by the change keys. -/
theorem covered_step (s s' : LoopState) (P Q : Prop) [Decidable P] [Decidable Q]
    (key : String) (e : Change)
    (hc : s'.conflicts = s.conflicts ++ if P then [key] else [])
    (hch : s'.changes = s.changes ++ if Q then [e] else [])
    (hpq : P → Q) (hke : e.key = key)
    (hs : ∀ k ∈ s.conflicts, k ∈ s.changes.map Change.key) :
    ∀ k ∈ s'.conflicts, k ∈ s'.changes.map Change.key := by
  intro k hk
  rw [hc, List.mem_append] at hk
  rw [hch, List.map_append, List.mem_append]
  rcases hk with hk | hk
  · exact Or.inl (hs k hk)
  · by_cases hP : P
    · rw [if_pos hP] at hk
      rw [if_pos (hpq hP)]
      right
      rw [List.mem_singleton] at hk
      subst hk
      simp [hke]
    · rw [if_neg hP] at hk
      cases hk

/-- The conflict list produced by the field loop only ever names fields that
the loop also recorded as changed. -/
theorem runFields_covered {db : DB} {sub : Submission} {prev : Baseline} {s : LoopState}
    (h : runFields db sub prev = .ok s) :
    ∀ k ∈ s.conflicts, k ∈ s.changes.map Change.key := by
  obtain ⟨s6, s7, hc, ht, hs⟩ := runFields_ok_elim h
  obtain ⟨objs, hobjs, hs6⟩ := channelsStep_ok_elim hc
  obtain ⟨db1, hdb1, hs7⟩ := tagsStep_ok_elim ht
  have base : ∀ k ∈ (LoopState.mk db.event db [] []).conflicts,
      k ∈ (LoopState.mk db.event db [] []).changes.map Change.key := by
    intro k hk; cases hk
  have h1 := covered_step _ _ _ _ "title" ⟨"title", .s prev.title, .s sub.title⟩
    (scalarStep_conflicts "title" sub.title prev.title (fun e => e.title)
      (fun e v => { e with title := v }) _)
    (scalarStep_changes "title" sub.title prev.title (fun e => e.title)
      (fun e v => { e with title := v }) _)
    (fun hp => hp.1) rfl base
  have h2 := covered_step _ _ _ _ "description"
    ⟨"description", .s prev.description, .s sub.description⟩
    (scalarStep_conflicts "description" sub.description prev.description
      (fun e => e.description) (fun e v => { e with description := v }) _)
    (scalarStep_changes "description" sub.description prev.description
      (fun e => e.description) (fun e v => { e with description := v }) _)
    (fun hp => hp.1) rfl h1
  have h3 := covered_step _ _ _ _ "short_description"
    ⟨"short_description", .s prev.short_description, .s sub.short_description⟩
    (scalarStep_conflicts "short_description" sub.short_description prev.short_description
      (fun e => e.short_description) (fun e v => { e with short_description := v }) _)
    (scalarStep_changes "short_description" sub.short_description prev.short_description
      (fun e => e.short_description) (fun e v => { e with short_description := v }) _)
    (fun hp => hp.1) rfl h2
  have h4 := covered_step _ _ _ _ "call_info"
    ⟨"call_info", .s prev.call_info, .s sub.call_info⟩
    (scalarStep_conflicts "call_info" sub.call_info prev.call_info
      (fun e => e.call_info) (fun e v => { e with call_info := v }) _)
    (scalarStep_changes "call_info" sub.call_info prev.call_info
      (fun e => e.call_info) (fun e v => { e with call_info := v }) _)
    (fun hp => hp.1) rfl h3
  have h5 : ∀ k ∈ (scalarPhase db sub prev).conflicts,
      k ∈ (scalarPhase db sub prev).changes.map Change.key := by
    have := covered_step _ _ _ _ "additional_links"
      ⟨"additional_links", .s prev.additional_links, .s sub.additional_links⟩
      (scalarStep_conflicts "additional_links" sub.additional_links prev.additional_links
        (fun e => e.additional_links) (fun e v => { e with additional_links := v }) _)
      (scalarStep_changes "additional_links" sub.additional_links prev.additional_links
        (fun e => e.additional_links) (fun e v => { e with additional_links := v }) _)
      (fun hp => hp.1) rfl h4
    exact this
  have h6 : ∀ k ∈ s6.conflicts, k ∈ s6.changes.map Change.key := by
    rw [hs6]
    exact covered_step _ _ _ _ "channels" _
      (channelsStepCore_conflicts objs sub prev _)
      (channelsStepCore_changes objs sub prev _)
      (fun hp => hp.1) rfl h5
  have h7 : ∀ k ∈ s7.conflicts, k ∈ s7.changes.map Change.key := by
    rw [hs7]
    exact covered_step _ _ _ _ "tags" _
      (tagsStepCore_conflicts _ sub prev _)
      (tagsStepCore_changes _ sub prev _)
      (fun hp => hp.1) rfl h6
  have h8 : ∀ k ∈ (pictureStep sub.picture prev s7).conflicts,
      k ∈ (pictureStep sub.picture prev s7).changes.map Change.key :=
    covered_step _ _ _ _ "picture" ⟨"picture", .n prev.picture, .n sub.picture⟩
      (pictureStep_conflicts sub.picture prev _)
      (pictureStep_changes sub.picture prev _)
      (fun hp => hp.1) rfl h7
  rw [hs]
  exact covered_step _ _ _ _ "placeholder_img" _
    (placeholderStep_conflicts sub.placeholder_img prev _)
    (placeholderStep_changes sub.placeholder_img prev _)
    (fun hp => hp.1) rfl h8

/-- Creation order is irreflexive. -/
theorem revLt_irrefl (a : Revision) : ¬ revLt a a := by
  unfold revLt; omega

/-- Creation order is asymmetric. -/
theorem revLt_asymm {a b : Revision} (h : revLt a b) : ¬ revLt b a := by
  unfold revLt at *; omega

/-- A revision at least as late as `b` that is earlier than `c` places `b`
earlier than `c` as well. -/
theorem revLt_trans_of_not {a b c : Revision} (h1 : ¬ revLt a b) (h2 : revLt a c) :
    revLt b c := by
  unfold revLt at *; omega

/-- `latestRev` returns nothing exactly on the empty list. -/
theorem latestRev_none {l : List Revision} : latestRev l = none ↔ l = [] := by
  cases l with
  | nil => simp [latestRev]
  | cons x t =>
    cases h : latestRev t with
    | none => simp [latestRev, h]
    | some y => simp only [latestRev, h]; split <;> simp

/-- `latestRev` returns a member of the list. -/
theorem latestRev_mem : ∀ {l : List Revision} {x : Revision},
    latestRev l = some x → x ∈ l := by
  intro l
  induction l with
  | nil => intro x h; cases h
  | cons a t ih =>
    intro x h
    unfold latestRev at h
    cases h2 : latestRev t with
    | none =>
      rw [h2] at h
      injection h with h1
      rw [← h1]
      exact List.mem_cons_self a t
    | some y =>
      rw [h2] at h
      dsimp only at h
      split_ifs at h with hlt
      · injection h with h1
        rw [← h1]
        exact List.mem_cons_of_mem a (ih h2)
      · injection h with h1
        rw [← h1]
        exact List.mem_cons_self a t

/-- `latestRev` returns a maximum of the list under creation order. -/
theorem latestRev_max : ∀ {l : List Revision} {x : Revision},
    latestRev l = some x → ∀ z ∈ l, ¬ revLt x z := by
  intro l
  induction l with
  | nil => intro x h; cases h
  | cons a t ih =>
    intro x h z hz
    unfold latestRev at h
    cases h2 : latestRev t with
    | none =>
      rw [h2] at h
      injection h with h1
      have ht : t = [] := latestRev_none.mp h2
      subst ht
      rw [List.mem_singleton] at hz
      rw [← h1, hz]
      exact revLt_irrefl _
    | some y =>
      rw [h2] at h
      dsimp only at h
      split_ifs at h with hlt
      · injection h with h1
        subst h1
        rcases List.mem_cons.mp hz with hz | hz
        · subst hz; exact revLt_asymm hlt
        · exact ih h2 z hz
      · injection h with h1
        subst h1
        rcases List.mem_cons.mp hz with hz | hz
        · subst hz; exact revLt_irrefl _
        · intro hxz
          exact ih h2 z hz (revLt_trans_of_not hlt hxz)

/-- Filtering a pointwise update that preserves the predicate preserves the
number of matches. -/
theorem filter_map_update_length (l : List Chapter) (p : Chapter → Bool)
    (g : Chapter → Chapter) (hg : ∀ c, p c = true → p (g c) = true) :
    ((l.map (fun c => if p c then g c else c)).filter p).length = (l.filter p).length := by
  induction l with
  | nil => rfl
  | cons a t ih =>
    by_cases hp : p a = true
    · simp [hp, hg a hp, ih]
    · simp [hp, ih]

/-- Cleaning is inert without an upload. -/
theorem cleanedData_none {sub : Submission} (h : sub.placeholder_img = none) :
    cleanedData sub = sub := by
  unfold cleanedData
  rw [h]

/-- Cleaning preserves the upload field. -/
theorem cleanedData_placeholder (sub : Submission) :
    (cleanedData sub).placeholder_img = sub.placeholder_img := by
  unfold cleanedData
  cases h : sub.placeholder_img <;> simp [h]

/-- With an upload present, cleaning discards the submitted picture value. -/
theorem cleanedData_picture_none {sub : Submission} {f : String}
    (h : sub.placeholder_img = some f) : (cleanedData sub).picture = none := by
  unfold cleanedData
  rw [h]

/-- With an upload present, the submitted picture value does not survive
cleaning at all: any two submitted values clean identically. -/
theorem cleanedData_override {sub : Submission} {f : String} (p : Option Nat)
    (h : sub.placeholder_img = some f) :
    cleanedData { sub with picture := p } = cleanedData sub := by
  unfold cleanedData
  cases sub
  simp only at h
  rw [h]

/-- C1: the claim says a CONFLICT outcome persists no database state (full
rollback, including relation mutations and the synthesized baseline).  The
code commits: `transaction.atomic` rolls back only on exceptions, and the
conflict branch returns a response normally.  Evaluated at the failing input,
the outcome is CONFLICT on `channels` while the channel relation mutation
`[3] to [3, 2]` and the synthesized baseline revision are both committed. -/
theorem C1_conflict_commits :
    (post C1db C1sub C1prev "alice").map
        (fun r => (r.1, r.2.event.channels, r.2.revisions.length)) =
      .ok (.conflict ["channels"], [3, 2], 1) ∧
    C1db.event.channels = [3] ∧ C1db.revisions.length = 0 :=
  ⟨rfl, rfl, rfl⟩

/-- C2 (counterexample): the stored tag list and the client baseline hold the
same members as sets, yet the submission (which changes tags) is reported as
conflicting on `tags` - so conflicts are not computed on id sets. -/
theorem C2_counterexample :
    setEq C2prev.tags C2db.event.tags = true ∧
    (post C2db C2sub C2prev "bob").map (fun r => r.1) = .ok (.conflict ["tags"]) :=
  ⟨rfl, rfl⟩

/-- C2 (amended): for every field the client attempts to change, a conflict
is reported exactly when the client baseline value differs from the current
database value under the field-specific resolution of lines 138-160 - image
fields resolve to a URL - except that relation fields (tags, channels)
resolve to raw id lists in database iteration order, compared as lists, so
relation states with equal member sets in different iteration orders do
conflict.  The conjuncts below characterize the conflict test for every
field the loop processes: the five scalar fields compare the baseline value
against the live attribute, the channels and tags tests compare the raw
baseline id list against the current id list, the picture test compares the
baseline id against the live id, and the placeholder test compares the
baseline URL against the resolved current URL (`placeholderCurrent`). -/
theorem C2_conflict_resolution (sub : Submission) (prev : Baseline) (s : LoopState) :
    ("title" ∈ (scalarStep "title" sub.title prev.title
        (fun e => e.title) (fun e v => { e with title := v }) s).conflicts ↔
      "title" ∈ s.conflicts ∨ (sub.title ≠ prev.title ∧ prev.title ≠ s.mem.title)) ∧
    ("description" ∈ (scalarStep "description" sub.description prev.description
        (fun e => e.description) (fun e v => { e with description := v }) s).conflicts ↔
      "description" ∈ s.conflicts ∨
        (sub.description ≠ prev.description ∧ prev.description ≠ s.mem.description)) ∧
    ("short_description" ∈ (scalarStep "short_description" sub.short_description
        prev.short_description (fun e => e.short_description)
        (fun e v => { e with short_description := v }) s).conflicts ↔
      "short_description" ∈ s.conflicts ∨
        (sub.short_description ≠ prev.short_description ∧
          prev.short_description ≠ s.mem.short_description)) ∧
    ("call_info" ∈ (scalarStep "call_info" sub.call_info prev.call_info
        (fun e => e.call_info) (fun e v => { e with call_info := v }) s).conflicts ↔
      "call_info" ∈ s.conflicts ∨
        (sub.call_info ≠ prev.call_info ∧ prev.call_info ≠ s.mem.call_info)) ∧
    ("additional_links" ∈ (scalarStep "additional_links" sub.additional_links
        prev.additional_links (fun e => e.additional_links)
        (fun e v => { e with additional_links := v }) s).conflicts ↔
      "additional_links" ∈ s.conflicts ∨
        (sub.additional_links ≠ prev.additional_links ∧
          prev.additional_links ≠ s.mem.additional_links)) ∧
    (∀ s', channelsStep sub prev s = .ok s' →
      ("channels" ∈ s'.conflicts ↔ "channels" ∈ s.conflicts ∨
        (setEq prev.channels.eraseDups sub.channels.eraseDups = false ∧
          prev.channels ≠ s.db.event.channels))) ∧
    (∀ t', tagsStep sub prev s = .ok t' →
      ("tags" ∈ t'.conflicts ↔ "tags" ∈ s.conflicts ∨
        (setEq (tagNamesByIds s.db prev.tags) sub.tags.eraseDups = false ∧
          prev.tags ≠ s.db.event.tags))) ∧
    (∀ v, "picture" ∈ (pictureStep v prev s).conflicts ↔ "picture" ∈ s.conflicts ∨
      (v ≠ prev.picture ∧ prev.picture ≠ s.mem.picture)) ∧
    ("placeholder_img" ∈ (placeholderStep sub.placeholder_img prev s).conflicts ↔
      "placeholder_img" ∈ s.conflicts ∨
      (sub.placeholder_img.isSome = true ∧
        prev.placeholder_img ≠ placeholderCurrent s.db s.mem sub.placeholder_img)) := by
  refine ⟨?_, ?_, ?_, ?_, ?_, ?_, ?_, ?_, ?_⟩
  · rw [scalarStep_conflicts]
    by_cases hP : sub.title ≠ prev.title ∧ prev.title ≠ s.mem.title
    · simp [hP]
    · simp [hP]
  · rw [scalarStep_conflicts]
    by_cases hP : sub.description ≠ prev.description ∧ prev.description ≠ s.mem.description
    · simp [hP]
    · simp [hP]
  · rw [scalarStep_conflicts]
    by_cases hP : sub.short_description ≠ prev.short_description ∧
        prev.short_description ≠ s.mem.short_description
    · simp [hP]
    · simp [hP]
  · rw [scalarStep_conflicts]
    by_cases hP : sub.call_info ≠ prev.call_info ∧ prev.call_info ≠ s.mem.call_info
    · simp [hP]
    · simp [hP]
  · rw [scalarStep_conflicts]
    by_cases hP : sub.additional_links ≠ prev.additional_links ∧
        prev.additional_links ≠ s.mem.additional_links
    · simp [hP]
    · simp [hP]
  · intro s' h
    obtain ⟨objs, hobjs, hcore⟩ := channelsStep_ok_elim h
    rw [hcore, channelsStepCore_conflicts, getChannels_ids hobjs]
    by_cases hP : setEq prev.channels.eraseDups sub.channels.eraseDups = false ∧
        prev.channels ≠ s.db.event.channels
    · simp [hP]
    · simp [hP]
  · intro t' h
    obtain ⟨db1, hdb1, hcore⟩ := tagsStep_ok_elim h
    rw [hcore, tagsStepCore_conflicts]
    by_cases hP : setEq (tagNamesByIds s.db prev.tags) sub.tags.eraseDups = false ∧
        prev.tags ≠ s.db.event.tags
    · simp [hP]
    · simp [hP]
  · intro v
    rw [pictureStep_conflicts]
    by_cases hP : v ≠ prev.picture ∧ prev.picture ≠ s.mem.picture
    · simp [hP]
    · simp [hP]
  · rw [placeholderStep_conflicts]
    by_cases hP : sub.placeholder_img.isSome = true ∧
        prev.placeholder_img ≠ placeholderCurrent s.db s.mem sub.placeholder_img
    · simp [hP]
    · simp [hP]

/-- Witness for the amended C2: on concrete state whose tag id lists differ
only in order, the tags iteration reports a conflict. -/
theorem C2_amended_witness : "tags" ∈ W2t.conflicts :=
  ((C2_conflict_resolution C2sub C2prev W2s0).2.2.2.2.2.2.1 W2t rfl).mpr
    (Or.inr ⟨rfl, by decide⟩)

/-- C3: a field the diff computation does not record as changed never appears
in the conflict list, even if its database value diverged concurrently - the
conflict check is gated on membership in the change set. -/
theorem C3_conflicts_gated (db : DB) (sub : Submission) (prev : Baseline) (s : LoopState)
    (h : runFields db sub prev = .ok s) :
    ∀ k, k ∉ s.changes.map Change.key → k ∉ s.conflicts := by
  intro k hk hc
  exact hk (runFields_covered h k hc)

/-- Witness for C3: on the concrete conflicting run, the untouched title field
is absent from the conflict list. -/
theorem C3_witness : "title" ∉ W3s.conflicts :=
  C3_conflicts_gated W3db W3sub W3prev W3s rfl "title" (by decide)

/-- C6: when a submitted tag name is added, matching against existing tags is
case-insensitive (`lowerEq`); an unmatched name creates a new tag entity with
the submitted name, and a name matching one or more existing tags - even
ambiguously - deterministically resolves to the first match in database order
instead of raising an error. -/
theorem C6_tag_resolution (db : DB) (n : String) :
    (db.tags.filter (fun t => lowerEq t.name n) = [] →
      resolveTag db n = (⟨db.nextTagId, n⟩,
        { db with tags := db.tags ++ [⟨db.nextTagId, n⟩],
                  nextTagId := db.nextTagId + 1 })) ∧
    (∀ t ts, db.tags.filter (fun t => lowerEq t.name n) = t :: ts →
      resolveTag db n = (t, db) ∧ lowerEq t.name n = true ∧ t ∈ db.tags) := by
  constructor
  · intro h
    unfold resolveTag
    rw [h]
  · intro t ts h
    unfold resolveTag
    rw [h]
    have hm : t ∈ db.tags.filter (fun t => lowerEq t.name n) := by
      rw [h]; exact List.mem_cons_self t ts
    exact ⟨rfl, (List.mem_filter.mp hm).2, (List.mem_filter.mp hm).1⟩

/-- Witness for C6 at a table holding two case-insensitive matches of foo. -/
theorem C6_witness :
    resolveTag W6db "foo" = (⟨1, "Foo"⟩, W6db) ∧
    lowerEq (Tag.mk 1 "Foo").name "foo" = true ∧ Tag.mk 1 "Foo" ∈ W6db.tags :=
  (C6_tag_resolution W6db "foo").2 ⟨1, "Foo"⟩ [⟨2, "FOO"⟩] rfl

/-- C7: looking up the revision immediately preceding a given one fails with
DoesNotExist exactly when the given revision is the earliest of its event; on
success it returns a same-event revision preceding the given one with no
same-event revision strictly between the two. -/
theorem C7_previous_of (db : DB) (r : Revision) :
    (get_previous_by_created db r = .error .doesNotExist ↔
      ∀ x ∈ db.revisions, x.eventId = r.eventId → ¬ revLt x r) ∧
    (∀ p, get_previous_by_created db r = .ok p →
      p ∈ db.revisions ∧ p.eventId = r.eventId ∧ revLt p r ∧
      ∀ x ∈ db.revisions, x.eventId = r.eventId → revLt x r → ¬ revLt p x) := by
  constructor
  · unfold get_previous_by_created
    cases h : latestRev (db.revisions.filter
        (fun x => decide (x.eventId = r.eventId ∧ revLt x r))) with
    | some p =>
      dsimp only
      constructor
      · intro hfalse; cases hfalse
      · intro hall
        exfalso
        have hm := List.mem_filter.mp (latestRev_mem h)
        have hprops := of_decide_eq_true hm.2
        exact hall p hm.1 hprops.1 hprops.2
    | none =>
      dsimp only
      have hl := latestRev_none.mp h
      rw [List.filter_eq_nil_iff] at hl
      constructor
      · intro _ x hx hev hlt
        exact hl x hx (decide_eq_true ⟨hev, hlt⟩)
      · intro _; rfl
  · intro p hp
    unfold get_previous_by_created at hp
    cases h : latestRev (db.revisions.filter
        (fun x => decide (x.eventId = r.eventId ∧ revLt x r))) with
    | none => rw [h] at hp; cases hp
    | some q =>
      rw [h] at hp
      injection hp with h1
      subst h1
      have hm := List.mem_filter.mp (latestRev_mem h)
      have hprops := of_decide_eq_true hm.2
      refine ⟨hm.1, hprops.1, hprops.2, ?_⟩
      intro x hx hev hlt
      exact latestRev_max h x (List.mem_filter.mpr ⟨hx, decide_eq_true ⟨hev, hlt⟩⟩)

/-- Witness for C7: in a two-revision history, the later revision has the
earlier one as its predecessor. -/
theorem C7_witness : W7r1 ∈ W7db.revisions ∧ W7r1.eventId = W7r2.eventId ∧ revLt W7r1 W7r2 := by
  have h := (C7_previous_of W7db W7r2).2 W7r1 rfl
  exact ⟨h.1, h.2.1, h.2.2.1⟩

/-- C8 (counterexample): an edit uploading a placeholder image commits as
CHANGED yet leaves the stored picture selection at 7 instead of clearing it,
because the client baseline recorded no picture. -/
theorem C8_counterexample :
    C8sub.placeholder_img = some "upl" ∧
    (post C8db C8sub C8prev "u").map (fun r => (r.1, r.2.event.picture)) =
      .ok (.changed, some 7) :=
  ⟨rfl, rfl⟩

/-- C9: chapter posting is an upsert keyed by (event, timestamp): with an
existing chapter at the submitted timestamp its text and author are updated
in place (same store size); otherwise a new chapter is appended; and exactly
one chapter for that key exists afterwards. -/
theorem C9_chapter_upsert (db : DB) (ts : Nat) (txt u : String) (db2 : DB)
    (h : chapterUpsert db ts txt u = .ok db2) :
    (db.chapters.filter (chapterMatch db ts) = [] →
      db2.chapters = db.chapters ++ [⟨db.event.id, ts, txt, u, true⟩]) ∧
    (∀ c0, db.chapters.filter (chapterMatch db ts) = [c0] →
      db2.chapters = db.chapters.map (fun c =>
        if chapterMatch db ts c then { c with user := u, text := txt } else c) ∧
      db2.chapters.length = db.chapters.length) ∧
    (db2.chapters.filter (chapterMatch db ts)).length = 1 := by
  unfold chapterUpsert at h
  cases hf : db.chapters.filter (chapterMatch db ts) with
  | nil =>
    rw [hf] at h
    injection h with h1
    subst h1
    refine ⟨fun _ => rfl, ?_, ?_⟩
    · intro c0 hc0; simp at hc0
    · show ((db.chapters ++ [Chapter.mk db.event.id ts txt u true]).filter
        (chapterMatch db ts)).length = 1
      rw [List.filter_append, hf]
      simp [chapterMatch]
  | cons a t =>
    cases t with
    | nil =>
      rw [hf] at h
      injection h with h1
      subst h1
      refine ⟨?_, ?_, ?_⟩
      · intro hnil; simp at hnil
      · intro c0 hc0
        exact ⟨rfl, by simp⟩
      · show ((db.chapters.map (fun c =>
          if chapterMatch db ts c then { c with user := u, text := txt } else c)).filter
            (chapterMatch db ts)).length = 1
        rw [filter_map_update_length db.chapters (chapterMatch db ts)
          (fun c => { c with user := u, text := txt }) (fun c hc => hc), hf]
        rfl
    | cons b t2 => rw [hf] at h; cases h

/-- Witness for C9: resubmitting an existing timestamp updates in place and
keeps the key unique. -/
theorem C9_witness :
    W9db2.chapters.length = W9db.chapters.length ∧
    (W9db2.chapters.filter (chapterMatch W9db 5)).length = 1 := by
  have h := C9_chapter_upsert W9db 5 "new text" "bob" W9db2 rfl
  exact ⟨(h.2.1 ⟨90, 5, "old text", "alice", true⟩ rfl).2, h.2.2⟩

/-- C10: deleting a chapter only flips its active flag - the store keeps the
same records (same length, matching rows keep timestamp, text and user, other
rows are untouched) - and the chapter listing returns only active chapters,
hence never the deleted one. -/
theorem C10_chapter_soft_delete (db : DB) (ts : Nat) (db2 : DB)
    (h : chapterDelete db ts = .ok db2) :
    db2.chapters = db.chapters.map (fun c =>
      if chapterMatch db ts c then { c with is_active := false } else c) ∧
    db2.chapters.length = db.chapters.length ∧
    (∀ c ∈ db.chapters, chapterMatch db ts c = false → c ∈ db2.chapters) ∧
    (∀ c ∈ db2.chapters, chapterMatch db ts c = true → c.is_active = false) ∧
    (∀ c ∈ chapterList db2, c.is_active = true ∧ chapterMatch db ts c = false) := by
  unfold chapterDelete at h
  cases hf : db.chapters.filter (chapterMatch db ts) with
  | nil => rw [hf] at h; cases h
  | cons a t =>
    cases t with
    | cons b t2 => rw [hf] at h; cases h
    | nil =>
      rw [hf] at h
      injection h with h1
      subst h1
      have hmap : ∀ c ∈ db.chapters.map (fun c =>
          if chapterMatch db ts c then { c with is_active := false } else c),
          chapterMatch db ts c = true → c.is_active = false := by
        intro c hcm hm
        obtain ⟨c0, hc0, hc0e⟩ := List.mem_map.mp hcm
        by_cases h0 : chapterMatch db ts c0 = true
        · rw [← hc0e]; simp [h0]
        · exfalso
          rw [← hc0e] at hm
          rw [if_neg h0] at hm
          exact h0 hm
      refine ⟨rfl, by simp, ?_, hmap, ?_⟩
      · intro c hc hm
        refine List.mem_map.mpr ⟨c, hc, ?_⟩
        simp [hm]
      · intro c hc
        have hmem := List.mem_filter.mp hc
        have hprops := of_decide_eq_true hmem.2
        refine ⟨hprops.2, ?_⟩
        cases hcm : chapterMatch db ts c with
        | false => rfl
        | true =>
          exfalso
          have := hmap c hmem.1 hcm
          rw [hprops.2] at this
          cases this

/-- Witness for C10: deleting timestamp 7 keeps the store size and leaves the
other chapter untouched. -/
theorem C10_witness :
    W10db2.chapters.length = W10db.chapters.length ∧
    Chapter.mk 91 8 "y" "dave" true ∈ W10db2.chapters := by
  have h := C10_chapter_soft_delete W10db 7 W10db2 rfl
  exact ⟨h.2.1, h.2.2.1 ⟨91, 8, "y", "dave", true⟩ (by decide) (by decide)⟩

/-- Revision creation appends exactly one row. -/
theorem create_from_event_revisions (db : DB) (e : Event) (u : Option String) :
    (create_from_event db e u).2.revisions = db.revisions ++ [(create_from_event db e u).1] := rfl

/-- The appended revision takes the current counter as pk. -/
theorem create_from_event_pk (db : DB) (e : Event) (u : Option String) :
    (create_from_event db e u).1.pk = db.nextRevPk := rfl

/-- Revision creation does not change the event row. -/
theorem create_from_event_event (db : DB) (e : Event) (u : Option String) :
    (create_from_event db e u).2.event = db.event := rfl

/-- Revision creation does not change the tag table. -/
theorem create_from_event_tags_table (db : DB) (e : Event) (u : Option String) :
    (create_from_event db e u).2.tags = db.tags := rfl

/-- Revision creation does not change the channel table. -/
theorem create_from_event_channels_table (db : DB) (e : Event) (u : Option String) :
    (create_from_event db e u).2.channels = db.channels := rfl

/-- The appended revision carries the given author. -/
theorem create_from_event_user (db : DB) (e : Event) (u : Option String) :
    (create_from_event db e u).1.user = u := rfl

/-- The appended revision belongs to the snapshotted event. -/
theorem create_from_event_eventId (db : DB) (e : Event) (u : Option String) :
    (create_from_event db e u).1.eventId = e.id := rfl

/-- Tag-name resolution only depends on the tag table. -/
theorem tagNamesByIds_congr (db db2 : DB) (ids : List Nat) (h : db.tags = db2.tags) :
    tagNamesByIds db ids = tagNamesByIds db2 ids := by
  unfold tagNamesByIds; rw [h]

/-- A submission equal to the baseline everywhere leaves the field loop
inert: no change, no conflict, no database write. -/
theorem runFields_id (db : DB) (sub : Submission) (prev : Baseline)
    (hex : ∀ i ∈ prev.channels, (db.channels.filter (fun c => decide (c.id = i))).length = 1)
    (h1 : sub.title = prev.title) (h2 : sub.description = prev.description)
    (h3 : sub.short_description = prev.short_description)
    (h4 : sub.call_info = prev.call_info)
    (h5 : sub.additional_links = prev.additional_links)
    (h6 : sub.picture = prev.picture) (h7 : sub.placeholder_img = none)
    (h8 : setEq prev.channels.eraseDups sub.channels.eraseDups = true)
    (h9 : setEq (tagNamesByIds db prev.tags) sub.tags.eraseDups = true) :
    runFields db sub prev = .ok ⟨db.event, db, [], []⟩ := by
  have hsp := scalarPhase_id db sub prev h1 h2 h3 h4 h5
  obtain ⟨objs, hobjs⟩ := getChannels_ok_of_len hex
  have hch : channelsStep sub prev ⟨db.event, db, [], []⟩ = .ok ⟨db.event, db, [], []⟩ :=
    channelsStep_id hobjs h8
  have htg : tagsStep sub prev ⟨db.event, db, [], []⟩ = .ok ⟨db.event, db, [], []⟩ :=
    tagsStep_id h9
  unfold runFields
  rw [hsp, hch]
  dsimp only
  rw [htg]
  dsimp only
  rw [pictureStep_id sub.picture prev _ h6, h7, placeholderStep_none]

/-- The no-op branch of the transaction body: both accumulators empty means
outcome NOOP with the synthesized baseline (if any) deleted. -/
theorem postCleaned_noop (db0 : DB) (sub : Submission) (prev : Baseline) (u : String)
    (db1 : DB) (b : Option Nat) (s : LoopState)
    (hEB : ensureBaseline db0 = (db1, b))
    (hrf : runFields db1 sub prev = .ok s)
    (hc : s.conflicts = []) (hch : s.changes = []) :
    postCleaned db0 sub prev u = .ok (.noop,
      b.elim s.db
        (fun pk => { s.db with revisions := s.db.revisions.filter (fun r => decide (r.pk ≠ pk)) })) := by
  cases b with
  | none =>
    unfold postCleaned
    rw [hEB]
    dsimp only [Option.elim]
    rw [hrf]
    dsimp only
    rw [hc, hch]
    rw [if_neg (fun hh => hh rfl), if_neg (fun hh => hh rfl)]
  | some pk =>
    unfold postCleaned
    rw [hEB]
    dsimp only [Option.elim]
    rw [hrf]
    dsimp only
    rw [hc, hch]
    rw [if_neg (fun hh => hh rfl), if_neg (fun hh => hh rfl)]

/-- C4: submitting an edit whose values all equal the current snapshot yields
outcome NOOP, with the revision list afterwards equal to the one before - in
particular no new revision survives and a baseline synthesized in the same
request (when the event had none) is deleted before commit. -/
theorem C4_noop_on_snapshot (db0 : DB) (sub : Submission) (u : String)
    (hwf : ∀ r ∈ db0.revisions, r.pk < db0.nextRevPk)
    (hex : ∀ i ∈ db0.event.channels, (db0.channels.filter (fun c => decide (c.id = i))).length = 1)
    (h1 : sub.title = db0.event.title) (h2 : sub.description = db0.event.description)
    (h3 : sub.short_description = db0.event.short_description)
    (h4 : sub.call_info = db0.event.call_info)
    (h5 : sub.additional_links = db0.event.additional_links)
    (h6 : sub.picture = db0.event.picture) (h7 : sub.placeholder_img = none)
    (h8 : setEq db0.event.channels.eraseDups sub.channels.eraseDups = true)
    (h9 : setEq (tagNamesByIds db0 db0.event.tags) sub.tags.eraseDups = true) :
    ∃ dbf, post db0 sub (event_to_dict db0) u = .ok (.noop, dbf) ∧
      dbf.revisions = db0.revisions := by
  by_cases hE : eventRevisions db0 = []
  · have hEB := ensureBaseline_empty hE
    have hexd : ∀ i ∈ (event_to_dict db0).channels,
        ((create_from_event db0 db0.event none).2.channels.filter
          (fun c => decide (c.id = i))).length = 1 := by
      rw [create_from_event_channels_table]
      exact hex
    have h9d : setEq (tagNamesByIds (create_from_event db0 db0.event none).2
        (event_to_dict db0).tags) sub.tags.eraseDups = true := by
      rw [tagNamesByIds_congr _ db0 _ (create_from_event_tags_table db0 db0.event none)]
      exact h9
    have hrf := runFields_id (create_from_event db0 db0.event none).2 sub (event_to_dict db0)
      hexd h1 h2 h3 h4 h5 h6 h7 h8 h9d
    have heq := postCleaned_noop db0 sub (event_to_dict db0) u
      (create_from_event db0 db0.event none).2 (some db0.nextRevPk) _ hEB hrf rfl rfl
    have heqp : post db0 sub (event_to_dict db0) u = .ok (.noop,
        { (create_from_event db0 db0.event none).2 with
          revisions := (create_from_event db0 db0.event none).2.revisions.filter
            (fun r => decide (r.pk ≠ db0.nextRevPk)) }) := by
      unfold post
      rw [cleanedData_none h7]
      exact heq
    refine ⟨_, heqp, ?_⟩
    show (create_from_event db0 db0.event none).2.revisions.filter
        (fun r => decide (r.pk ≠ db0.nextRevPk)) = db0.revisions
    rw [create_from_event_revisions, List.filter_append]
    have hfa : db0.revisions.filter (fun r => decide (r.pk ≠ db0.nextRevPk)) = db0.revisions :=
      List.filter_eq_self.mpr (fun r hr => decide_eq_true (Nat.ne_of_lt (hwf r hr)))
    have hfb : [(create_from_event db0 db0.event none).1].filter
        (fun r => decide (r.pk ≠ db0.nextRevPk)) = [] := by
      rw [List.filter_cons]
      rw [if_neg (by rw [create_from_event_pk]; simp)]
      rfl
    rw [hfa, hfb, List.append_nil]
  · have hEB := ensureBaseline_nonempty hE
    have hrf := runFields_id db0 sub (event_to_dict db0) hex h1 h2 h3 h4 h5 h6 h7 h8 h9
    have heq := postCleaned_noop db0 sub (event_to_dict db0) u db0 none _ hEB hrf rfl rfl
    refine ⟨db0, ?_, rfl⟩
    unfold post
    rw [cleanedData_none h7]
    exact heq

/-- Witness for C4: resubmitting the snapshot of `W4db` is a NOOP and the
synthesized baseline is gone afterwards. -/
theorem C4_witness :
    ∃ dbf, post W4db W4sub (event_to_dict W4db) "u" = .ok (.noop, dbf) ∧
      dbf.revisions = W4db.revisions :=
  C4_noop_on_snapshot W4db W4sub "u" (by decide) (by decide) rfl rfl rfl rfl rfl rfl rfl
    (by decide) (by decide)

/-- A submission equal to the baseline except for the title, with the
baseline title matching the stored title, leaves the loop with exactly the
title change and no conflict. -/
theorem runFields_title (db : DB) (sub : Submission) (prev : Baseline)
    (hex : ∀ i ∈ prev.channels, (db.channels.filter (fun c => decide (c.id = i))).length = 1)
    (h1 : sub.title ≠ prev.title) (h1c : prev.title = db.event.title)
    (h2 : sub.description = prev.description)
    (h3 : sub.short_description = prev.short_description)
    (h4 : sub.call_info = prev.call_info)
    (h5 : sub.additional_links = prev.additional_links)
    (h6 : sub.picture = prev.picture) (h7 : sub.placeholder_img = none)
    (h8 : setEq prev.channels.eraseDups sub.channels.eraseDups = true)
    (h9 : setEq (tagNamesByIds db prev.tags) sub.tags.eraseDups = true) :
    runFields db sub prev = .ok ⟨{ db.event with title := sub.title }, db,
      [⟨"title", .s prev.title, .s sub.title⟩], []⟩ := by
  have hsp := scalarPhase_title db sub prev h1 h1c h2 h3 h4 h5
  obtain ⟨objs, hobjs⟩ := getChannels_ok_of_len hex
  have hch : channelsStep sub prev ⟨{ db.event with title := sub.title }, db,
      [⟨"title", .s prev.title, .s sub.title⟩], []⟩ =
      .ok ⟨{ db.event with title := sub.title }, db,
        [⟨"title", .s prev.title, .s sub.title⟩], []⟩ :=
    channelsStep_id hobjs h8
  have htg : tagsStep sub prev ⟨{ db.event with title := sub.title }, db,
      [⟨"title", .s prev.title, .s sub.title⟩], []⟩ =
      .ok ⟨{ db.event with title := sub.title }, db,
        [⟨"title", .s prev.title, .s sub.title⟩], []⟩ :=
    tagsStep_id h9
  unfold runFields
  rw [hsp, hch]
  dsimp only
  rw [htg]
  dsimp only
  rw [pictureStep_id sub.picture prev _ h6, h7, placeholderStep_none]

/-- The changed branch of the transaction body: no conflicts and a non-empty
change set mean the event is saved and an attributed revision appended. -/
theorem postCleaned_changed (db0 : DB) (sub : Submission) (prev : Baseline) (u : String)
    (db1 : DB) (b : Option Nat) (s : LoopState)
    (hEB : ensureBaseline db0 = (db1, b))
    (hrf : runFields db1 sub prev = .ok s)
    (hc : s.conflicts = []) (hch : s.changes ≠ []) :
    postCleaned db0 sub prev u = .ok (.changed,
      (create_from_event (saveEvent s.db s.mem) (saveEvent s.db s.mem).event (some u)).2) := by
  unfold postCleaned
  rw [hEB]
  dsimp only
  rw [hrf]
  dsimp only
  rw [hc]
  rw [if_neg (fun hh => hh rfl), if_pos hch]

/-- C5: on an event titled Old with no revisions, submitting the snapshot as
baseline with the title changed to New yields outcome CHANGED with the change
set mapping title from Old to New, persists the title mutation, and leaves
exactly two revisions for the event: the synthesized authorless baseline and
a new revision attributed to the acting user. -/
theorem C5_first_edit_title (db0 : DB) (sub : Submission) (u : String)
    (hER : eventRevisions db0 = [])
    (hex : ∀ i ∈ db0.event.channels, (db0.channels.filter (fun c => decide (c.id = i))).length = 1)
    (htO : db0.event.title = "Old") (htN : sub.title = "New")
    (h2 : sub.description = db0.event.description)
    (h3 : sub.short_description = db0.event.short_description)
    (h4 : sub.call_info = db0.event.call_info)
    (h5 : sub.additional_links = db0.event.additional_links)
    (h6 : sub.picture = db0.event.picture) (h7 : sub.placeholder_img = none)
    (h8 : setEq db0.event.channels.eraseDups sub.channels.eraseDups = true)
    (h9 : setEq (tagNamesByIds db0 db0.event.tags) sub.tags.eraseDups = true) :
    ∃ base nrev dbf, post db0 sub (event_to_dict db0) u = .ok (.changed, dbf) ∧
      dbf.event.title = "New" ∧
      dbf.revisions = db0.revisions ++ [base, nrev] ∧
      eventRevisions dbf = [base, nrev] ∧
      base.user = none ∧ nrev.user = some u ∧
      (∃ s, runFields (ensureBaseline db0).1 (cleanedData sub) (event_to_dict db0) = .ok s ∧
        s.changes = [⟨"title", Val.s "Old", Val.s "New"⟩]) := by
  have hEB := ensureBaseline_empty hER
  have hexd : ∀ i ∈ (event_to_dict db0).channels,
      ((create_from_event db0 db0.event none).2.channels.filter
        (fun c => decide (c.id = i))).length = 1 := by
    rw [create_from_event_channels_table]
    exact hex
  have h9d : setEq (tagNamesByIds (create_from_event db0 db0.event none).2
      (event_to_dict db0).tags) sub.tags.eraseDups = true := by
    rw [tagNamesByIds_congr _ db0 _ (create_from_event_tags_table db0 db0.event none)]
    exact h9
  have hprevO : (event_to_dict db0).title = "Old" := htO
  have h1 : sub.title ≠ (event_to_dict db0).title := by
    rw [htN, hprevO]
    decide
  have hrf1 := runFields_title (create_from_event db0 db0.event none).2 sub (event_to_dict db0)
    hexd h1 rfl h2 h3 h4 h5 h6 h7 h8 h9d
  have hpc := postCleaned_changed db0 sub (event_to_dict db0) u
    (create_from_event db0 db0.event none).2 (some db0.nextRevPk) _ hEB hrf1 rfl
    (List.cons_ne_nil _ _)
  have hpost : post db0 sub (event_to_dict db0) u = postCleaned db0 sub (event_to_dict db0) u := by
    unfold post
    rw [cleanedData_none h7]
  have heqp := hpost.trans hpc
  let B := create_from_event db0 db0.event none
  let S : LoopState := ⟨{ B.2.event with title := sub.title }, B.2,
    [⟨"title", Val.s (event_to_dict db0).title, Val.s sub.title⟩], []⟩
  let C := create_from_event (saveEvent S.db S.mem) (saveEvent S.db S.mem).event (some u)
  refine ⟨B.1, C.1, C.2, heqp, htN, List.append_assoc db0.revisions [B.1] [C.1], ?_,
    rfl, rfl, ⟨S, ?_, ?_⟩⟩
  · show ((db0.revisions ++ [B.1]) ++ [C.1]).filter
      (fun r => decide (r.eventId = db0.event.id)) = [B.1, C.1]
    rw [List.append_assoc]
    have hER2 : db0.revisions.filter (fun r => decide (r.eventId = db0.event.id)) = [] := hER
    rw [List.filter_append, hER2, List.nil_append]
    show ([B.1, C.1]).filter (fun r => decide (r.eventId = db0.event.id)) = [B.1, C.1]
    refine List.filter_eq_self.mpr ?_
    intro r hr
    rcases List.mem_cons.mp hr with hh | hh
    · subst hh; exact decide_eq_true rfl
    · rw [List.mem_singleton] at hh
      subst hh
      exact decide_eq_true rfl
  · rw [hEB]
    dsimp only
    rw [cleanedData_none h7]
    exact hrf1
  · show [(⟨"title", Val.s (event_to_dict db0).title, Val.s sub.title⟩ : Change)] =
      [⟨"title", Val.s "Old", Val.s "New"⟩]
    rw [hprevO, htN]

/-- Witness for C5: renaming the title of `W5db` from Old to New. -/
theorem C5_witness :
    ∃ base nrev dbf, post W5db W5sub (event_to_dict W5db) "u" = .ok (.changed, dbf) ∧
      dbf.event.title = "New" ∧
      dbf.revisions = W5db.revisions ++ [base, nrev] ∧
      eventRevisions dbf = [base, nrev] ∧
      base.user = none ∧ nrev.user = some "u" ∧
      (∃ s, runFields (ensureBaseline W5db).1 (cleanedData W5sub) (event_to_dict W5db) = .ok s ∧
        s.changes = [⟨"title", Val.s "Old", Val.s "New"⟩]) :=
  C5_first_edit_title W5db W5sub "u" rfl (by decide) rfl rfl rfl rfl rfl rfl rfl rfl
    (by decide) (by decide)

/-- C8 (amended): with a placeholder image uploaded, the submitted picture
value is overridden to None before diffing and conflict detection, so the
client-submitted picture value never influences the result at all; when the
edit commits as CHANGED, the stored picture selection is cleared when the
client baseline had a picture selected and left unchanged when the baseline
had none. -/
theorem C8_placeholder_overrides (db0 : DB) (sub : Submission) (prev : Baseline)
    (u f : String) (h : sub.placeholder_img = some f) :
    (∀ p, post db0 { sub with picture := p } prev u = post db0 sub prev u) ∧
    (∀ dbf, post db0 sub prev u = .ok (.changed, dbf) →
      dbf.event.picture = if prev.picture = none then db0.event.picture else none) := by
  constructor
  · intro p
    unfold post
    rw [cleanedData_override p h]
  · intro dbf hdbf
    unfold post at hdbf
    simp only [postCleaned] at hdbf
    cases hr : runFields (ensureBaseline db0).1 (cleanedData sub) prev with
    | error e => rw [hr] at hdbf; cases hdbf
    | ok s =>
      rw [hr] at hdbf
      dsimp only at hdbf
      by_cases hc : s.conflicts ≠ []
      · rw [if_pos hc] at hdbf
        simp at hdbf
      · rw [if_neg hc] at hdbf
        by_cases hch : s.changes ≠ []
        · rw [if_pos hch] at hdbf
          injection hdbf with h1
          rw [Prod.mk.injEq] at h1
          have h2 := h1.2
          have hmp := runFields_mem_picture hr
          rw [cleanedData_picture_none h, ensureBaseline_event] at hmp
          have h3 : dbf.event.picture = s.mem.picture := by
            rw [← h2]
            exact rfl
          rw [h3, hmp]
          cases prev.picture <;> simp
        · rw [if_neg hch] at hdbf
          simp at hdbf

/-- Witness for the amended C8 on the concrete `C8db` input: the submitted
picture value is irrelevant and the committed edit keeps the stored picture,
because the client baseline had none selected. -/
theorem C8_amended_witness :
    post C8db { C8sub with picture := some 3 } C8prev "u" = post C8db C8sub C8prev "u" ∧
    W8dbf.event.picture = (if C8prev.picture = none then C8db.event.picture else none) :=
  ⟨(C8_placeholder_overrides C8db C8sub C8prev "u" "upl" rfl).1 (some 3),
   (C8_placeholder_overrides C8db C8sub C8prev "u" "upl" rfl).2 W8dbf rfl⟩

end AirmozillaEdit
